import Mathlib

/-!
# Verification of the DA metric reader's liveness sampling and batch attestation core

Shallow embedding of the Rust sources (`src/handlers.rs`, `src/config.rs`,
`src/sampler.rs`, `src/batch.rs`, `src/main.rs`) of the `da-metric-reader`
repository, together with theorems settling the specification claims about
the observation store, the liveness classifier, the sliding window buffer
and the batch generator.

Machine integers: the Rust code manipulates `u64` timestamps with
`saturating_sub` (never ordinary subtraction), `i64` counters (only compared
and subtracted, with values far from the overflow range in every claim), and
`usize` counts bounded by list lengths; these are embedded as `Nat` (whose
truncated subtraction coincides with `u64::saturating_sub` on values below
`2^64`) and `Int`.  Floating point (`f64`) appears only in the threshold
computation and is embedded exactly, as rationals rounded to 53-bit
significands with round-to-nearest, ties-to-even.
-/

namespace DaMetricReader

/-! ## Data model (src/types.rs, src/main.rs) -/

/-- `DasMetrics` (observation store): latest externally reported counters and
their freshness timestamp (`src/main.rs` lines 82-87). -/
structure DasMetrics where
  head : Option Int
  headers : Option Int
  last_update : Option Nat
  deriving Repr, DecidableEq

/-- The default observation store: everything absent (`#[derive(Default)]`). -/
def DasMetrics.default : DasMetrics := ⟨none, none, none⟩

/-- `SampleBit` (`src/main.rs` lines 99-104): one verdict per classifier tick. -/
structure SampleBit where
  timestamp : Nat
  ok : Bool
  reason : String
  deriving Repr, DecidableEq

/-- `Sample` (`src/main.rs` lines 107-114): superset of `SampleBit` with the raw
counter values, written to the full-history log. -/
structure Sample where
  timestamp : Nat
  head : Option Int
  headers : Option Int
  ok : Bool
  reason : String
  deriving Repr, DecidableEq

/-- `MetricValue` (`src/main.rs` lines 138-153): value of a normalized metric.
Only the `Int` constructor is ever inspected by the ingestion logic; the
`double`/`histogram`/`summary` payloads are irrelevant to every claim and are
carried abstractly. -/
inductive MetricValue where
  | int (v : Int)
  | double (q : ℚ)
  | histogram
  | summary
  deriving Repr, DecidableEq

/-- The part of `NormalizedMetric` (`src/main.rs` lines 117-135) consulted by
`extract_das_metrics`: the metric name and its value. -/
structure NormalizedMetric where
  name : String
  value : MetricValue
  deriving Repr, DecidableEq

/-- `MetricsConfig` (`src/config.rs` lines 34-39). -/
structure MetricsConfig where
  head_metric : String
  headers_metric : String
  min_increment : Int
  deriving Repr, DecidableEq

/-- `SamplingConfig` (`src/config.rs` lines 16-21). -/
structure SamplingConfig where
  tick_secs : Nat
  max_staleness_secs : Nat
  grace_period_secs : Nat
  deriving Repr, DecidableEq

/-! ## Observation store update (src/handlers.rs lines 129-161) -/

/-- One step of the fold in `extract_das_metrics`: the two sequential `if`
blocks of the loop body, updating the store and the `updated` flag for a
single normalized metric. -/
def extractStep (cfg : MetricsConfig) (now : Nat)
    (acc : DasMetrics × Bool) (m : NormalizedMetric) : DasMetrics × Bool :=
  let acc1 :=
    if m.name = cfg.head_metric then
      match m.value with
      | MetricValue.int v => (⟨some v, acc.1.headers, some now⟩, true)
      | _ => acc
    else acc
  if m.name = cfg.headers_metric then
    match m.value with
    | MetricValue.int v => (⟨acc1.1.head, some v, acc1.1.last_update⟩, true)
    | _ => acc1
  else acc1

/-- `extract_das_metrics` (`src/handlers.rs` lines 129-161, identically
`src/main.rs` lines 530-562): walk the normalized metrics, overwriting `head`
(and refreshing `last_update` to `now`) on a head-metric integer sample and
overwriting `headers` on a headers-metric integer sample; returns the updated
store and whether anything was updated. -/
def extract_das_metrics (cfg : MetricsConfig) (metrics : List NormalizedMetric)
    (dm : DasMetrics) (now : Nat) : DasMetrics × Bool :=
  metrics.foldl (extractStep cfg now) (dm, false)

/-- A metric that triggers the head branch of `extract_das_metrics`. -/
def isHeadUpdate (cfg : MetricsConfig) (m : NormalizedMetric) : Bool :=
  m.name = cfg.head_metric &&
    match m.value with
    | MetricValue.int _ => true
    | _ => false

/-! ## Liveness classifier (src/sampler.rs lines 20-101) -/

/-- Staleness check (`src/sampler.rs` lines 35-41): stale if `last_update` is
absent or the saturating age exceeds `max_staleness_secs`. -/
def isStale (maxStaleness : Nat) (lastUpdate : Option Nat) (now : Nat) : Bool :=
  match lastUpdate with
  | some u => now - u > maxStaleness
  | none => true

/-- The observation age used by the grace check (`src/sampler.rs` line 54):
saturating `now - last_update`, with sentinel `999` when absent. -/
def dataAge (lastUpdate : Option Nat) (now : Nat) : Nat :=
  (lastUpdate.map (fun u => now - u)).getD 999

/-- Head-advancement check (`src/sampler.rs` lines 44-68): returns the
`(head_advanced, head_reason)` pair. -/
def headCheck (minIncrement : Int) (gracePeriod : Nat)
    (prevHead curHead : Option Int) (lastUpdate : Option Nat) (now : Nat) :
    Bool × String :=
  match prevHead, curHead with
  | some prev, some curr =>
    let diff := curr - prev
    if diff ≥ minIncrement then
      (true, "+" ++ toString diff ++ " blocks")
    else
      let age := dataAge lastUpdate now
      if age ≤ gracePeriod then
        (true, "fresh data (age=" ++ toString age ++ "s)")
      else
        (false, "head stuck at " ++ toString curr)
  | none, some _ => (true, "first sample")
  | _, _ => (false, "no head data")

/-- Headers-advancement check (`src/sampler.rs` lines 71-75). -/
def headersAdvanced (prevHeaders curHeaders : Option Int) : Bool :=
  match prevHeaders, curHeaders with
  | some prev, some curr => curr > prev
  | none, some _ => true
  | _, _ => false

/-- The staleness reason string of `src/sampler.rs` line 79. -/
def staleReason (maxStaleness : Nat) : String :=
  "stale (age > " ++ toString maxStaleness ++ "s)"

/-- Final verdict of one classifier tick (`src/sampler.rs` lines 77-86):
first failing condition wins in the order stale, head-not-advanced,
headers-not-advanced. -/
def classify (cfg : SamplingConfig) (minIncrement : Int)
    (prevHead prevHeaders curHead curHeaders : Option Int)
    (lastUpdate : Option Nat) (now : Nat) : Bool × String :=
  let stale := isStale cfg.max_staleness_secs lastUpdate now
  let hc := headCheck minIncrement cfg.grace_period_secs prevHead curHead lastUpdate now
  let ha := headersAdvanced prevHeaders curHeaders
  if stale then
    (false, staleReason cfg.max_staleness_secs)
  else if !hc.1 then
    (false, hc.2)
  else if !ha then
    (false, "headers not advancing")
  else
    (true, hc.2)

/-! ## Sliding window buffer (src/sampler.rs lines 116-125) -/

/-- `push` into the ring buffer: `push_back` followed by `pop_front` while the
length exceeds the window size (`src/sampler.rs` lines 116-125).  The list is
ordered oldest first, so popping from the front is `List.drop` of the excess. -/
def ringPush (windowSize : Nat) (buf : List SampleBit) (b : SampleBit) :
    List SampleBit :=
  let buf2 := buf ++ [b]
  buf2.drop (buf2.length - windowSize)

/-- The buffer obtained by pushing a whole sequence of sample bits, oldest
first, into an initially empty ring buffer. -/
def ringOfPushes (windowSize : Nat) (pushes : List SampleBit) : List SampleBit :=
  pushes.foldl (ringPush windowSize) []

/-! ## f64 arithmetic for the threshold (src/batch.rs line 42)

`threshold = ((n as f64) * threshold_percent).ceil() as usize` is computed in
IEEE 754 double precision.  Every `f64` value occurring in this computation is
finite and nonnegative (a threshold fraction and a sample count), hence of the
form `m * 2^e` with a 53-bit significand `m`; such values are embedded as a
mantissa/exponent pair, and each operation performs the IEEE rounding (round
to nearest, ties to even) exactly, in integer arithmetic.  Overflow and
subnormals are far beyond the value range of every claim and are not
modelled. -/

/-- `2^e` as a rational, for an integer exponent (statement-level meaning of
an exponent; not used in computations). -/
def pow2 (e : Int) : ℚ :=
  if 0 ≤ e then ((2 ^ e.toNat : ℕ) : ℚ) else (((2 ^ (-e).toNat : ℕ) : ℚ))⁻¹

/-- Round the fraction `a / b` (with `b ≠ 0`) to the nearest natural number,
ties to even. -/
def rhe2 (a b : Nat) : Nat :=
  let f := a / b
  let r := a % b
  if 2 * r < b then f
  else if b < 2 * r then f + 1
  else if f % 2 = 0 then f else f + 1

/-- Fuel-driven floor of `log2` (structural recursion, so that it evaluates
inside the kernel). -/
def nlog2Aux : Nat → Nat → Nat
  | 0, _ => 0
  | fuel + 1, n => if n ≤ 1 then 0 else nlog2Aux fuel (n / 2) + 1

/-- `⌊log2 n⌋` for `n ≥ 1` (and `0` for `n = 0`). -/
def nlog2 (n : Nat) : Nat := nlog2Aux n n

/-- Whether `2^e ≤ a / b`, for naturals `a, b ≥ 1` and an integer exponent. -/
def le2pow (e : Int) (a b : Nat) : Bool :=
  if 0 ≤ e then decide (b * 2 ^ e.toNat ≤ a) else decide (b ≤ a * 2 ^ (-e).toNat)

/-- Largest `e` with `2^e ≤ a / b`, for `a, b ≥ 1`: a `log2`-based first
guess, corrected by direct comparison. -/
def expOfQ (a b : Nat) : Int :=
  let g : Int := (nlog2 a : Int) - (nlog2 b : Int)
  if le2pow (g + 1) a b then g + 1 else if le2pow g a b then g else g - 1

/-- A nonnegative finite `f64`: the value `m * 2^e`. -/
structure F64 where
  m : Nat
  e : Int
  deriving Repr, DecidableEq

/-- The rational value of an embedded `f64`. -/
def F64.toRat (x : F64) : ℚ := (x.m : ℚ) * pow2 x.e

/-- Round the nonnegative rational `a / b` (with `b ≥ 1`) to the nearest
`f64`: normalize to a 53-bit significand window and round, ties to even. -/
def roundPos (a b : Nat) : F64 :=
  if a = 0 then ⟨0, 0⟩
  else
    let e : Int := expOfQ a b - 52
    let m : Nat :=
      if 0 ≤ e then rhe2 a (b * 2 ^ e.toNat) else rhe2 (a * 2 ^ (-e).toNat) b
    ⟨m, e⟩

/-- The `f64` value of a nonnegative decimal constant `a / b` — what Rust's
TOML/float parsing produces for the configured `threshold_percent`. -/
def f64OfDecimal (a b : Nat) : F64 := roundPos a b

/-- `n as f64`: conversion of a nonnegative integer to double (exact below
`2^53`, correctly rounded above). -/
def f64OfNat (n : Nat) : F64 := roundPos n 1

/-- `f64` multiplication: the exact product `(x.m * y.m) * 2^(x.e + y.e)`,
rounded back to 53 significand bits.  IEEE rounding commutes with scaling by
powers of two, so rounding the integer `x.m * y.m` and shifting the exponent
is exact. -/
def F64.mul (x y : F64) : F64 :=
  let r := roundPos (x.m * y.m) 1
  ⟨r.m, r.e + x.e + y.e⟩

/-- `f64::ceil` of a nonnegative double followed by `as usize`: for `e ≥ 0`
the value is an integer; otherwise the ceiling of `m / 2^(-e)`. -/
def F64.ceilNat (x : F64) : Nat :=
  if 0 ≤ x.e then x.m * 2 ^ x.e.toNat
  else (x.m + 2 ^ (-x.e).toNat - 1) / 2 ^ (-x.e).toNat

/-- `((n as f64) * threshold_percent).ceil() as usize`
(`src/batch.rs` line 42). -/
def thresholdF64 (n : Nat) (f : F64) : Nat := ((f64OfNat n).mul f).ceilNat

/-! ## Bitmap and hash (src/batch.rs lines 47-52) -/

/-- The bitmap (`src/batch.rs` line 48): one byte per sample bit in window
order, `1` if `ok` else `0`. -/
def mkBitmap (bits : List SampleBit) : List Nat :=
  bits.map (fun b => if b.ok then 1 else 0)

/-- Modelled from the spec: the repository calls the external `blake3` crate,
whose implementation is not part of this repository; the spec requires only
"a cryptographic content hash (256-bit, hex-encoded)" that is a deterministic
function of the exact byte sequence.  Modelled as a deterministic 256-bit
fold over the bytes. -/
def blake3Hash (bytes : List Nat) : Nat :=
  bytes.foldl (fun h b => (h * 1099511628211 + b + 1) % 2 ^ 256)
    14695981039346656037

/-- One lowercase hexadecimal digit. -/
def hexDigit (n : Nat) : Char :=
  if n < 10 then Char.ofNat (48 + n) else Char.ofNat (87 + n)

/-- A 256-bit value rendered as 64 lowercase hex characters, most significant
nibble first (the `to_hex` rendering of a 256-bit hash). -/
def hex64 (n : Nat) : String :=
  String.mk ((List.range 64).map (fun i => hexDigit (n / 16 ^ (63 - i) % 16)))

/-- `bitmap_hash` as stored in the batch (`src/batch.rs` lines 51-52): the
hex-encoded 256-bit content hash of the bitmap bytes. -/
def bitmapHashHex (bytes : List Nat) : String := hex64 (blake3Hash bytes)

/-! ## Batch generator (src/batch.rs lines 20-111) -/

/-- `Batch` (`src/types.rs`, `src/main.rs` lines 871-877). -/
structure Batch where
  n : Nat
  good : Nat
  threshold : Nat
  bitmap_hash : String
  window_start : Nat
  window_end : Nat
  deriving Repr, DecidableEq

/-- The batch record built from a non-empty snapshot (`src/batch.rs` lines
39-64): counts, f64 threshold, window bounds from the first and last bit's
timestamps (defaulting to `now` for an empty snapshot, per the
`unwrap_or(now)`), and the bitmap hash. -/
def mkBatchRecord (thresholdPercent : F64) (bits : List SampleBit) (now : Nat) :
    Batch :=
  { n := bits.length
    good := (bits.filter (fun b => b.ok)).length
    threshold := thresholdF64 bits.length thresholdPercent
    bitmap_hash := bitmapHashHex (mkBitmap bits)
    window_start := ((bits.head?).map (fun b => b.timestamp)).getD now
    window_end := ((bits.getLast?).map (fun b => b.timestamp)).getD now }

/-- Outcome of one batch-generator period: what is persisted (batch record and
raw bitmap), and the read-only `good >= threshold` diagnostic that is logged. -/
structure BatchOutcome where
  persisted : Option (Batch × List Nat)
  diagnostic : Option Bool
  deriving Repr, DecidableEq

/-- One period of `run_batch_generator` (`src/batch.rs` lines 20-111) as a
function of the ring-buffer snapshot: an empty snapshot skips the period
(nothing persisted, nothing reported); otherwise the batch and bitmap are
saved and the threshold comparison is evaluated afterwards, purely for
reporting. -/
def batchStep (thresholdPercent : F64) (bits : List SampleBit) (now : Nat) :
    BatchOutcome :=
  if bits.isEmpty then
    { persisted := none, diagnostic := none }
  else
    let batch := mkBatchRecord thresholdPercent bits now
    let bitmapBytes := mkBitmap bits
    { persisted := some (batch, bitmapBytes)
      diagnostic := some (decide (batch.good ≥ batch.threshold)) }

/-! ## Configuration validation (src/config.rs lines 61-127) -/

/-- The fields of `Config` (`src/config.rs` lines 6-59) consulted by
validation and by the window-capacity computation. -/
structure Config where
  tick_secs : Nat
  max_staleness_secs : Nat
  grace_period_secs : Nat
  window_secs : Nat
  threshold_percent : F64
  mnemonic : Option String
  private_key_hex : Option String
  deriving Repr, DecidableEq

/-- `Config::validate` (`src/config.rs` lines 102-126): the only check is that
exactly one of `mnemonic` and `private_key_hex` is provided; on failure an
error message is returned (`anyhow::bail!`). -/
def Config.validate (c : Config) : Except String Unit :=
  match c.mnemonic, c.private_key_hex with
  | none, none =>
    Except.error ("Celestia configuration error: Must provide authentication via environment variables.")
  | some _, some _ =>
    Except.error ("Celestia configuration error: Provide only ONE of mnemonic or private_key_hex, not both")
  | some _, none => Except.ok ()
  | none, some _ => Except.ok ()

/-- The window capacity computed by the sampler
(`src/sampler.rs` line 11): `window_secs / tick_secs` in integer division.
(The Rust expression panics on `tick_secs = 0`; for nonzero `tick_secs` it is
the integer floor embedded here.) -/
def windowCapacity (c : Config) : Nat := c.window_secs / c.tick_secs

/-! ## Theorems -/

/-- Effect of a single `extract_das_metrics` loop iteration on `last_update`:
refreshed to `now` exactly when the metric is a head-metric integer sample. -/
theorem extractStep_last_update (cfg : MetricsConfig) (now : Nat)
    (acc : DasMetrics × Bool) (m : NormalizedMetric) :
    (extractStep cfg now acc m).1.last_update =
      (if isHeadUpdate cfg m then some now else acc.1.last_update) := by
  unfold extractStep isHeadUpdate
  by_cases h1 : m.name = cfg.head_metric <;>
    by_cases h2 : m.name = cfg.headers_metric <;>
      cases hv : m.value <;> simp [h1, h2, hv] <;> split <;> simp

/-- Effect of the whole `extract_das_metrics` fold on `last_update`. -/
theorem extract_foldl_last_update (cfg : MetricsConfig) (now : Nat) :
    ∀ (metrics : List NormalizedMetric) (acc : DasMetrics × Bool),
      (List.foldl (extractStep cfg now) acc metrics).1.last_update =
        (if metrics.any (isHeadUpdate cfg) then some now else acc.1.last_update) := by
  intro metrics
  induction metrics with
  | nil => intro acc; simp
  | cons m ms ih =>
    intro acc
    rw [List.foldl_cons, ih, List.any_cons, extractStep_last_update]
    by_cases h1 : isHeadUpdate cfg m <;> by_cases h2 : ms.any (isHeadUpdate cfg) <;>
      simp [h1, h2]

/-- C1 (amended): an `extract_das_metrics` call refreshes `last_update` to the
call time exactly when a head-metric integer value is provided; a call that
provides only headers values leaves `last_update` unchanged. -/
theorem c1_last_update_refreshed_iff_head_provided (cfg : MetricsConfig)
    (metrics : List NormalizedMetric) (dm : DasMetrics) (now : Nat) :
    (extract_das_metrics cfg metrics dm now).1.last_update =
      (if metrics.any (isHeadUpdate cfg) then some now else dm.last_update) :=
  extract_foldl_last_update cfg now metrics (dm, false)

/-- C1 (counterexample): an update providing only a headers value (here the
headers metric with value `5`, at time `123`, on the empty store) overwrites
`headers` but does not refresh `last_update`, contradicting the claim that
every update refreshes `last_update` to `at`. -/
theorem c1_headers_only_update_counterexample :
    (extract_das_metrics ⟨"das_sampled_chain_head", "das_total_sampled_headers", 1⟩
        [⟨"das_total_sampled_headers", MetricValue.int 5⟩] DasMetrics.default 123).1.headers
      = some 5 ∧
    (extract_das_metrics ⟨"das_sampled_chain_head", "das_total_sampled_headers", 1⟩
        [⟨"das_total_sampled_headers", MetricValue.int 5⟩] DasMetrics.default 123).1.last_update
      = none := by
  decide

/-- C2: `Config::validate` accepts configurations whose intervals produce a
zero-capacity window — it checks only the Celestia credentials.  A
configuration with `tick_secs = 0`, and one with `window_secs < tick_secs`
(window capacity `30 / 60 = 0`), both pass validation, so loading proceeds to
run the periodic loops instead of failing. -/
theorem c2_validate_accepts_zero_capacity_config :
    Config.validate ⟨0, 30, 10, 300, f64OfDecimal 9 10, some ("mnemonic"), none⟩
      = Except.ok () ∧
    Config.validate ⟨60, 30, 10, 30, f64OfDecimal 9 10, some ("mnemonic"), none⟩
      = Except.ok () ∧
    windowCapacity ⟨60, 30, 10, 30, f64OfDecimal 9 10, some ("mnemonic"), none⟩ = 0 :=
  ⟨rfl, rfl, rfl⟩

/-- C7: a batch-generator period whose ring-buffer snapshot is empty persists
nothing and produces no batch record and no diagnostic. -/
theorem c7_empty_window_skips (f : F64) (now : Nat) :
    batchStep f [] now = { persisted := none, diagnostic := none } := rfl

/-- C8: for every non-empty snapshot the batch record and raw bitmap are
persisted, and the `good >= threshold` comparison is a separate read-only
diagnostic that does not influence what is persisted. -/
theorem c8_threshold_does_not_gate_persistence (f : F64) (bits : List SampleBit)
    (now : Nat) (hne : bits ≠ []) :
    (batchStep f bits now).persisted = some (mkBatchRecord f bits now, mkBitmap bits) ∧
    (batchStep f bits now).diagnostic =
      some (decide ((mkBatchRecord f bits now).good ≥ (mkBatchRecord f bits now).threshold)) := by
  have h : bits.isEmpty = false := by
    cases bits with
    | nil => exact absurd rfl hne
    | cons b bs => rfl
  constructor <;> simp [batchStep, h]

/-- C8 witness: a concrete one-sample snapshot that fails its threshold
(`good = 0 < 1 = threshold`) is still persisted, with a `false` diagnostic. -/
theorem c8_threshold_does_not_gate_persistence_witness :
    (batchStep (f64OfDecimal 9 10) [⟨1, false, "down"⟩] 5).persisted =
      some (mkBatchRecord (f64OfDecimal 9 10) [⟨1, false, "down"⟩] 5,
        mkBitmap [⟨1, false, "down"⟩]) :=
  (c8_threshold_does_not_gate_persistence (f64OfDecimal 9 10) [⟨1, false, "down"⟩] 5
    (by decide)).1

/-- C10: the observation age is computed with saturating subtraction: it is
total truncated subtraction, and a `last_update` in the future yields age `0`,
hence a not-stale verdict for every `max_staleness_secs` and a zero `data_age`
in the grace check. -/
theorem c10_age_saturates (now u maxS : Nat) :
    dataAge (some u) now = now - u ∧
    (now < u → dataAge (some u) now = 0 ∧ isStale maxS (some u) now = false) := by
  refine ⟨by simp [dataAge], fun h => ?_⟩
  have h0 : now - u = 0 := Nat.sub_eq_zero_of_le (Nat.le_of_lt h)
  refine ⟨by simp [dataAge, h0], ?_⟩
  simp [isStale, h0]

/-- C10 witness: a future `last_update` (`u = 10 > now = 5`) gives age `0` and
a not-stale classification even at `max_staleness_secs = 0`. -/
theorem c10_age_saturates_witness :
    dataAge (some 10) 5 = 0 ∧ isStale 0 (some 10) 5 = false :=
  (c10_age_saturates 5 10 0).2 (by decide)

/-- C3: the final verdict is decided by the first failing condition in the
priority order stale, head-not-advanced, headers-not-advanced: a stale tick is
`(false, staleReason)` whatever the progress checks say; otherwise a failed
head check propagates its reason; otherwise failed headers give
`"headers not advancing"`; otherwise the tick is ok with the head reason. -/
theorem c3_verdict_priority (cfg : SamplingConfig) (minInc : Int)
    (prevHead prevHeaders curHead curHeaders : Option Int)
    (lastUpdate : Option Nat) (now : Nat) :
    (isStale cfg.max_staleness_secs lastUpdate now = true →
      classify cfg minInc prevHead prevHeaders curHead curHeaders lastUpdate now =
        (false, staleReason cfg.max_staleness_secs)) ∧
    (isStale cfg.max_staleness_secs lastUpdate now = false →
      (headCheck minInc cfg.grace_period_secs prevHead curHead lastUpdate now).1 = false →
      classify cfg minInc prevHead prevHeaders curHead curHeaders lastUpdate now =
        (false, (headCheck minInc cfg.grace_period_secs prevHead curHead lastUpdate now).2)) ∧
    (isStale cfg.max_staleness_secs lastUpdate now = false →
      (headCheck minInc cfg.grace_period_secs prevHead curHead lastUpdate now).1 = true →
      headersAdvanced prevHeaders curHeaders = false →
      classify cfg minInc prevHead prevHeaders curHead curHeaders lastUpdate now =
        (false, "headers not advancing")) ∧
    (isStale cfg.max_staleness_secs lastUpdate now = false →
      (headCheck minInc cfg.grace_period_secs prevHead curHead lastUpdate now).1 = true →
      headersAdvanced prevHeaders curHeaders = true →
      classify cfg minInc prevHead prevHeaders curHead curHeaders lastUpdate now =
        (true, (headCheck minInc cfg.grace_period_secs prevHead curHead lastUpdate now).2)) := by
  refine ⟨fun hs => by simp [classify, hs], fun hs hh => by simp [classify, hs, hh],
    fun hs hh ha => by simp [classify, hs, hh, ha],
    fun hs hh ha => by simp [classify, hs, hh, ha]⟩

/-- C3 witness: a stale tick whose head and headers both advanced is still
classified not ok with the staleness reason. -/
theorem c3_verdict_priority_witness :
    classify ⟨30, 5, 30⟩ 1 (some 1) (some 1) (some 10) (some 10) (some 50) 100 =
      (false, staleReason 5) :=
  (c3_verdict_priority ⟨30, 5, 30⟩ 1 (some 1) (some 1) (some 10) (some 10)
    (some 50) 100).1 (by decide)

/-- The ring-buffer fold from any buffer already within capacity keeps exactly
the last `cap` elements of the concatenation, in order. -/
theorem ringPush_foldl (cap : Nat) :
    ∀ (pushes : List SampleBit) (buf : List SampleBit), buf.length ≤ cap →
      List.foldl (ringPush cap) buf pushes =
        (buf ++ pushes).drop ((buf ++ pushes).length - cap) := by
  intro pushes
  induction pushes with
  | nil =>
    intro buf h
    simp [Nat.sub_eq_zero_of_le h]
  | cons b bs ih =>
    intro buf h
    rw [List.foldl_cons]
    have hlen : (ringPush cap buf b).length ≤ cap := by
      simp only [ringPush, List.length_drop]
      omega
    rw [ih (ringPush cap buf b) hlen]
    have e1 : buf ++ b :: bs = (buf ++ [b]) ++ bs := by simp
    rw [e1]
    simp only [ringPush]
    have hdle : (buf ++ [b]).length - cap ≤ (buf ++ [b]).length := Nat.sub_le _ _
    have e2 : ((buf ++ [b]) ++ bs).drop ((buf ++ [b]).length - cap) =
        ((buf ++ [b]).drop ((buf ++ [b]).length - cap)) ++ bs := by
      rw [List.drop_append_eq_append_drop, Nat.sub_eq_zero_of_le hdle, List.drop_zero]
    rw [← e2, List.drop_drop]
    congr 1
    simp only [List.length_drop, List.length_append, List.length_cons,
      List.length_singleton]
    omega

/-- C4: for every capacity and every push sequence, the buffer built by the
ring-buffer `push` discipline has length at most the capacity and its
oldest-to-newest contents are exactly the most recent `capacity` pushes (the
suffix of the push sequence), so oldest entries are evicted first. -/
theorem c4_window_bound_and_order (cap : Nat) (pushes : List SampleBit) :
    (ringOfPushes cap pushes).length ≤ cap ∧
      ringOfPushes cap pushes = pushes.drop (pushes.length - cap) := by
  have h := ringPush_foldl cap pushes [] (by simp)
  simp only [List.nil_append] at h
  unfold ringOfPushes
  rw [h]
  refine ⟨?_, rfl⟩
  rw [List.length_drop]
  omega

/-- C5: the bitmap of a snapshot has one byte per sample bit in window order
(`1` for ok, `0` otherwise), and the hex-encoded 256-bit hash is a function of
the bitmap bytes alone, so two snapshots with the same ordered ok values get
byte-identical bitmaps and identical hashes. -/
theorem c5_bitmap_and_hash (bits bits2 : List SampleBit) (_hne : bits ≠ []) :
    (mkBitmap bits).length = bits.length ∧
    (∀ i, (mkBitmap bits).get? i =
      (bits.get? i).map (fun b => if b.ok then (1 : Nat) else 0)) ∧
    (bits.map SampleBit.ok = bits2.map SampleBit.ok →
      mkBitmap bits = mkBitmap bits2 ∧
      bitmapHashHex (mkBitmap bits) = bitmapHashHex (mkBitmap bits2)) ∧
    (bitmapHashHex (mkBitmap bits)).length = 64 := by
  have e : ∀ (l : List SampleBit),
      mkBitmap l = (l.map SampleBit.ok).map (fun t => if t then (1 : Nat) else 0) := by
    intro l
    rw [mkBitmap, List.map_map]
    rfl
  refine ⟨by simp [mkBitmap], fun i => ?_, fun h => ?_, ?_⟩
  · simp [mkBitmap, List.get?_eq_getElem?, List.getElem?_map]
  · have hb : mkBitmap bits = mkBitmap bits2 := by rw [e, e, h]
    exact ⟨hb, by rw [hb]⟩
  · rfl

/-- C5 witness: two two-sample snapshots with equal ok sequences but different
timestamps and reasons have the same bitmap length and identical hashes. -/
theorem c5_bitmap_and_hash_witness :
    (mkBitmap [⟨1, true, "a"⟩, ⟨2, false, "b"⟩]).length = 2 ∧
    bitmapHashHex (mkBitmap [⟨1, true, "a"⟩, ⟨2, false, "b"⟩]) =
      bitmapHashHex (mkBitmap [⟨5, true, "x"⟩, ⟨7, false, "y"⟩]) := by
  have h := c5_bitmap_and_hash [⟨1, true, "a"⟩, ⟨2, false, "b"⟩]
    [⟨5, true, "x"⟩, ⟨7, false, "y"⟩] (by decide)
  exact ⟨by rw [h.1]; rfl, (h.2.2.1 (by decide)).2⟩

/-- The embedded double nearest to `9/10`, as a rational: the IEEE 754 value
`8106479329266893 * 2^(-53)` that Rust's parsing of `0.9` produces. -/
theorem f64OfDecimal_nine_tenths :
    (f64OfDecimal 9 10).toRat = (8106479329266893 : ℚ) / 9007199254740992 := by
  have h : f64OfDecimal 9 10 = ⟨8106479329266893, -53⟩ := by decide
  rw [h]
  show ((8106479329266893 : ℕ) : ℚ) * (((2 ^ (53 : ℕ) : ℕ) : ℚ))⁻¹ = _
  norm_num

/-- The embedded double nearest to `7/100`, as a rational: the IEEE 754 value
`1261007895663739 * 2^(-54)` that Rust's parsing of `0.07` produces. -/
theorem f64OfDecimal_seven_hundredths :
    (f64OfDecimal 7 100).toRat = (1261007895663739 : ℚ) / 18014398509481984 := by
  have h : f64OfDecimal 7 100 = ⟨5044031582654956, -56⟩ := by decide
  rw [h]
  show ((5044031582654956 : ℕ) : ℚ) * (((2 ^ (56 : ℕ) : ℕ) : ℚ))⁻¹ = _
  norm_num

set_option maxRecDepth 8000 in
/-- C6 (amended): the threshold is `ceil` computed in `f64` arithmetic; at the
spec's quoted examples it coincides with the exact `ceil(n * f)`: `n = 10`,
`f = 0.9` gives `9`, and `n = 3`, `f = 0.5` gives `2`. -/
theorem c6_threshold_examples :
    thresholdF64 10 (f64OfDecimal 9 10) = 9 ∧
    thresholdF64 3 (f64OfDecimal 1 2) = 2 := by
  constructor <;> decide

set_option maxRecDepth 8000 in
/-- C6 (counterexample): the code's `f64` threshold is not `ceil(n * f)` for
every `n` and `f`: at `n = 100`, `f = 0.07` the `f64` computation yields `8`
(because `100.0 * 0.07` rounds up to `7.000000000000001`), while the exact
`ceil(100 * (7/100)) = 7`. -/
theorem c6_threshold_f64_counterexample :
    thresholdF64 100 (f64OfDecimal 7 100) = 8 ∧
    ⌈(100 : ℚ) * (7 / 100)⌉ = 7 := by
  constructor
  · decide
  · norm_num

/-- C9 (counterexample): with `previous_head = 100`, `current_head = 100`,
`min_increment = 1`, `grace_period_secs = 30`, headers advancing, and
`now - last_update = 10 ≤ 30`, the claim predicts an ok verdict with a fresh
data reason; but with `max_staleness_secs = 5` the tick is stale and the code
returns not ok with the staleness reason. -/
theorem c9_stale_tick_defeats_grace_claim :
    (100 - 90 : Nat) ≤ 30 ∧
    classify ⟨1, 5, 30⟩ 1 (some 100) (some 1) (some 100) (some 2) (some 90) 100 =
      (false, staleReason 5) := by
  decide

/-- C9 (amended): grace period forgiveness holds for ticks that are not stale:
with `previous_head = 100`, `current_head = 100`, `min_increment = 1`,
`grace_period_secs = 30` and `now - last_update` within `max_staleness_secs`,
if the age is at most `30` and headers advanced the verdict is ok with the
fresh-data reason, and if the age exceeds `30` the verdict is not ok with the
head-stuck reason. -/
theorem c9_grace_period_forgiveness (cfg : SamplingConfig)
    (prevHeaders curHeaders : Option Int) (u now : Nat)
    (hgrace : cfg.grace_period_secs = 30)
    (hnotstale : now - u ≤ cfg.max_staleness_secs) :
    (now - u ≤ 30 → headersAdvanced prevHeaders curHeaders = true →
      classify cfg 1 (some 100) prevHeaders (some 100) curHeaders (some u) now =
        (true, "fresh data (age=" ++ toString (now - u) ++ "s)")) ∧
    (30 < now - u →
      classify cfg 1 (some 100) prevHeaders (some 100) curHeaders (some u) now =
        (false, "head stuck at 100")) := by
  have hstale : isStale cfg.max_staleness_secs (some u) now = false := by
    simp [isStale]
    omega
  constructor
  · intro hage hheaders
    simp [classify, hstale, headCheck, dataAge, hgrace, hage, hheaders, staleReason]
  · intro hage
    have hage' : ¬ (now - u ≤ 30) := by omega
    simp [classify, hstale, headCheck, dataAge, hgrace, hage', staleReason]
    decide

/-- C9 witness: a not-stale tick with age `20 ≤ 30`, a stuck head at `100` and
advancing headers is classified ok with reason `"fresh data (age=20s)"`. -/
theorem c9_grace_period_forgiveness_witness :
    classify ⟨1, 1000, 30⟩ 1 (some 100) (some 1) (some 100) (some 2) (some 80) 100 =
      (true, "fresh data (age=" ++ toString (100 - 80 : Nat) ++ "s)") :=
  (c9_grace_period_forgiveness ⟨1, 1000, 30⟩ (some 1) (some 2) 80 100 rfl
    (by decide)).1 (by decide) (by decide)

end DaMetricReader
